import Mathlib

/-!
Verification of the balance-sheet extraction pipeline in `utils.py` of the
bs-visualizer repository.

The Python source is shallowly embedded: Python integers become `Int`,
Python strings become `String` (compared through their character lists),
`float(s)` on the decimal strings appearing in XBRL facts is embedded as
exact decimal parsing into `ℚ`, and `int(x)` as truncation toward zero.
Network access and the pandas/BeautifulSoup layers are embedded at their
interfaces: a parsed document is a list of tagged facts, the EDINET code
table is a list of rows, and the daily disclosure index is a function from
day offset (0 = today) to that day's list of filing records.
-/

/-- Output record of `fetch_financial_data` (utils.py lines 301-306):
the six numeric fields written into the returned dict. -/
structure BalanceSheetSummary where
  currentAssets : Int
  nonCurrentAssets : Int
  currentLiabilities : Int
  nonCurrentLiabilities : Int
  netAssets : Int
  totalAssets : Int
  deriving Repr, DecidableEq

/-- The reconciliation block of `fetch_financial_data` (utils.py lines
264-306), taking the five extracted line items `ca, nca, cl, ncl, na` and
the two extracted totals. Each `let` shadows the Python rebinding of the
same variable; `abs(limit_diff) > 0` is `0 < limit_diff.natAbs`. -/
def reconcile (ca nca cl ncl na total_assets total_liabilities : Int) :
    BalanceSheetSummary :=
  -- 1. Trust Total Assets if available
  let total_assets := if total_assets = 0 then ca + nca else total_assets
  -- 2. Check Assets breakdown
  let nca := if ca + nca < total_assets then total_assets - ca else nca
  -- 3. Handle Liabilities and Net Assets
  let total_liabilities :=
    if total_liabilities = 0 ∧ na > 0 then total_assets - na else total_liabilities
  let na := if na = 0 ∧ total_liabilities > 0 then total_assets - total_liabilities else na
  -- Check Liabilities breakdown
  let ncl := if cl + ncl < total_liabilities then total_liabilities - cl else ncl
  -- Final Force Balance
  let limit_diff := total_assets - (cl + ncl + na)
  let na := if 0 < limit_diff.natAbs then na + limit_diff else na
  ⟨ca, nca, cl, ncl, na, total_assets⟩

/-- A tagged numeric fact as `get_val_by_tag` sees it through
BeautifulSoup: the element's tag name, its `contextRef` attribute
(defaulting to `""`), and its text content. Strings are embedded as their
character lists so that every operation kernel-reduces. -/
structure XFact where
  name : List Char
  contextRef : List Char
  text : List Char
  deriving Repr, DecidableEq

/-- `pat` occurs as a contiguous run inside `cs` (Python's `in` on
strings, used by the `contextRef` scoring of utils.py lines 233-240). -/
def containsSub : List Char → List Char → Bool
  | pat, [] => pat.isEmpty
  | pat, c :: rest => pat.isPrefixOf (c :: rest) || containsSub pat rest

/-- Embedding of the regex `.*:{name}$|^{name}$` that `get_val_by_tag`
matches against tag names (utils.py line 212). The target names contain
no regex metacharacters and tag names contain no newlines, so a label
matches iff it equals the target name or ends with `":"` followed by the
target name. -/
def targetPattern (label name : List Char) : Bool :=
  label == name || List.isSuffixOf (':' :: name) label

/-- The context scoring of utils.py lines 232-240: `"Prior"` contexts
score 0, current-period instants 3, current periods 2, anything else 1. -/
def contextScore (contextRef : List Char) : Int :=
  if containsSub "Prior".toList contextRef then 0
  else if containsSub "CurrentYearInstant".toList contextRef
      || containsSub "CurrentQuarterInstant".toList contextRef then 3
  else if containsSub "CurrentYear".toList contextRef
      || containsSub "CurrentQuarter".toList contextRef then 2
  else 1

/-- Whitespace as removed by Python's `str.strip()`. -/
def isPyWs (c : Char) : Bool :=
  c == ' ' || c == '\t' || c == '\n' || c == '\r' || c == '\x0b' || c == '\x0c'

/-- Python `str.strip()`: drop whitespace from both ends. -/
def pyStrip (cs : List Char) : List Char :=
  ((cs.dropWhile isPyWs).reverse.dropWhile isPyWs).reverse

/-- Value of a digit string, most significant digit first. -/
def digitsToNat (cs : List Char) : Nat :=
  cs.foldl (fun a c => a * 10 + (c.toNat - 48)) 0

/-- An exact decimal value `num / 10 ^ scale`. Python's `float(s)` on the
plain decimal strings carried by XBRL facts is embedded as this exact
value (binary rounding is below the granularity these claims discuss). -/
structure DecVal where
  num : Int
  scale : Nat
  deriving Repr, DecidableEq

/-- Embedding of `float(val_str)` on decimal literals: an optional sign,
then digits with at most one decimal point. Non-numeric strings yield
`none` (Python raises `ValueError`, which line 230 turns into `continue`). -/
def parseDecimal (cs0 : List Char) : Option DecVal :=
  let p := match cs0 with
    | '-' :: rest => (true, rest)
    | '+' :: rest => (false, rest)
    | cs => (false, cs)
  let app : Nat → Int := fun n => if p.1 then -(n : Int) else (n : Int)
  match (p.2).splitOn '.' with
  | [a] =>
      if !a.isEmpty && a.all Char.isDigit then some ⟨app (digitsToNat a), 0⟩
      else none
  | [a, b] =>
      if (!a.isEmpty || !b.isEmpty) && a.all Char.isDigit && b.all Char.isDigit then
        some ⟨app (digitsToNat a * 10 ^ b.length + digitsToNat b), b.length⟩
      else none
  | _ => none

/-- Python `int(x)` on a float: truncation toward zero (`Int.tdiv` is
T-division). -/
def pyTrunc (d : DecVal) : Int :=
  d.num.tdiv (10 ^ d.scale)

/-- Lines 224-230 of utils.py: strip the element text, skip it when empty
or non-numeric, otherwise its decimal value. -/
def factVal (f : XFact) : Option DecVal :=
  let s := pyStrip f.text
  if s.isEmpty then none else parseDecimal s

/-- Lines 210-214 of utils.py: for each target spelling in order, all
facts whose tag name matches it, concatenated. -/
def collectCandidates (localNames : List (List Char)) (facts : List XFact) :
    List XFact :=
  (localNames.map (fun n => facts.filter (fun f => targetPattern f.name n))).flatten

/-- The selection loop of utils.py lines 219-244: running best value and
priority score, updated on strictly larger scores, starting at `(0, -1)`. -/
def selectLoop : List XFact → Int → Int → Int
  | [], best_val, _ => best_val
  | f :: rest, best_val, priority_score =>
    match factVal f with
    | none => selectLoop rest best_val priority_score
    | some d =>
      let score := contextScore f.contextRef
      if priority_score < score then selectLoop rest (pyTrunc d) score
      else selectLoop rest best_val priority_score

/-- `get_val_by_tag` of utils.py lines 209-246. -/
def get_val_by_tag (localNames : List (List Char)) (facts : List XFact) : Int :=
  let candidates := collectCandidates localNames facts
  if candidates.isEmpty then 0
  else selectLoop candidates 0 (-1)

/-- The running maximum of the context scores of `cs`, seeded with `p`. -/
def maxScore (cs : List XFact) (p : Int) : Int :=
  (cs.map (fun f => contextScore f.contextRef)).foldl max p

theorem contextScore_nonneg (c : List Char) : 0 ≤ contextScore c := by
  unfold contextScore
  split_ifs <;> norm_num

theorem le_maxScore (cs : List XFact) (p : Int) : p ≤ maxScore cs p := by
  induction cs generalizing p with
  | nil => exact le_refl p
  | cons f rest ih =>
    exact le_trans (le_max_left p _) (ih (max p (contextScore f.contextRef)))

theorem score_le_maxScore (cs : List XFact) (p : Int) (f : XFact) (hf : f ∈ cs) :
    contextScore f.contextRef ≤ maxScore cs p := by
  induction cs generalizing p with
  | nil => cases hf
  | cons g rest ih =>
    rcases List.mem_cons.mp hf with h | h
    · subst h
      exact le_trans (le_max_right p _) (le_maxScore rest _)
    · exact ih (max p (contextScore g.contextRef)) h

theorem selectLoop_skips_invalid (cs : List XFact) (bv p : Int) :
    selectLoop cs bv p = selectLoop (cs.filter (fun f => (factVal f).isSome)) bv p := by
  induction cs generalizing bv p with
  | nil => rfl
  | cons f rest ih =>
    cases h : factVal f with
    | none => simp [selectLoop, h, List.filter_cons, ih bv p]
    | some d =>
      by_cases hlt : p < contextScore f.contextRef
      · simp [selectLoop, h, List.filter_cons, hlt, ih]
      · simp [selectLoop, h, List.filter_cons, hlt, ih bv p]

theorem selectLoop_stays (cs : List XFact) (bv p : Int)
    (h : ∀ f ∈ cs, contextScore f.contextRef ≤ p) :
    selectLoop cs bv p = bv := by
  induction cs generalizing bv with
  | nil => rfl
  | cons f rest ih =>
    have hf := h f (List.mem_cons_self f rest)
    have hrest : ∀ g ∈ rest, contextScore g.contextRef ≤ p :=
      fun g hg => h g (List.mem_cons_of_mem f hg)
    cases hv : factVal f with
    | none =>
      have hstep : selectLoop (f :: rest) bv p = selectLoop rest bv p := by
        simp [selectLoop, hv]
      rw [hstep]
      exact ih bv hrest
    | some d =>
      have hstep : selectLoop (f :: rest) bv p = selectLoop rest bv p := by
        simp [selectLoop, hv, not_lt.mpr hf]
      rw [hstep]
      exact ih bv hrest

theorem selectLoop_finds_first_max (cs : List XFact) (bv p : Int)
    (hval : ∀ g ∈ cs, (factVal g).isSome = true)
    (hmax : p < maxScore cs p) (f : XFact)
    (hfind : cs.find? (fun g => contextScore g.contextRef == maxScore cs p) = some f) :
    selectLoop cs bv p = pyTrunc ((factVal f).getD ⟨0, 0⟩) := by
  induction cs generalizing bv p with
  | nil => exact absurd hmax (lt_irrefl p)
  | cons g rest ih =>
    obtain ⟨d, hd⟩ := Option.isSome_iff_exists.mp
      (hval g (List.mem_cons_self g rest))
    have hvrest : ∀ g' ∈ rest, (factVal g').isSome = true :=
      fun g' hg' => hval g' (List.mem_cons_of_mem g hg')
    have hMcons : maxScore (g :: rest) p
        = maxScore rest (max p (contextScore g.contextRef)) := rfl
    by_cases hps : p < contextScore g.contextRef
    · have hmx : max p (contextScore g.contextRef) = contextScore g.contextRef :=
        max_eq_right (le_of_lt hps)
      have hstep : selectLoop (g :: rest) bv p
          = selectLoop rest (pyTrunc d) (contextScore g.contextRef) := by
        simp [selectLoop, hd, hps]
      by_cases hsM : contextScore g.contextRef
          < maxScore rest (contextScore g.contextRef)
      · -- the head is not the maximum: the scan continues into `rest`
        have hne : ¬ ((fun g' : XFact => contextScore g'.contextRef
            == maxScore (g :: rest) p) g = true) := by
          simp only [beq_iff_eq, hMcons, hmx]
          exact ne_of_lt hsM
        rw [@List.find?_cons_of_neg XFact
          (fun g' => contextScore g'.contextRef == maxScore (g :: rest) p)
          g rest hne] at hfind
        rw [hMcons, hmx] at hfind
        rw [hstep]
        exact ih (pyTrunc d) (contextScore g.contextRef) hvrest hsM hfind
      · -- the head attains the maximum and is kept to the end
        have hM : maxScore rest (contextScore g.contextRef) = contextScore g.contextRef :=
          le_antisymm (not_lt.mp hsM) (le_maxScore rest _)
        have hpos : ((fun g' : XFact => contextScore g'.contextRef
            == maxScore (g :: rest) p) g = true) := by
          simp only [beq_iff_eq, hMcons, hmx, hM]
        rw [@List.find?_cons_of_pos XFact
          (fun g' => contextScore g'.contextRef == maxScore (g :: rest) p)
          g rest hpos] at hfind
        have hfg : f = g := (Option.some_inj.mp hfind).symm
        have hstay : ∀ g' ∈ rest,
            contextScore g'.contextRef ≤ contextScore g.contextRef := by
          intro g' hg'
          rw [← hM]
          exact score_le_maxScore rest (contextScore g.contextRef) g' hg'
        rw [hstep, selectLoop_stays rest (pyTrunc d) (contextScore g.contextRef) hstay,
          hfg, hd]
        rfl
    · -- the head scores no more than the seed: it is never selected
      have hmx : max p (contextScore g.contextRef) = p :=
        max_eq_left (not_lt.mp hps)
      have hmax' : p < maxScore rest p := by
        rw [hMcons, hmx] at hmax
        exact hmax
      have hstep : selectLoop (g :: rest) bv p = selectLoop rest bv p := by
        simp [selectLoop, hd, hps]
      have hne : ¬ ((fun g' : XFact => contextScore g'.contextRef
          == maxScore (g :: rest) p) g = true) := by
        simp only [beq_iff_eq, hMcons, hmx]
        exact ne_of_lt (lt_of_le_of_lt (not_lt.mp hps) hmax')
      rw [@List.find?_cons_of_neg XFact
        (fun g' => contextScore g'.contextRef == maxScore (g :: rest) p)
        g rest hne] at hfind
      rw [hMcons, hmx] at hfind
      rw [hstep]
      exact ih bv p hvrest hmax' hfind

theorem collectCandidates_filter (localNames : List (List Char)) (facts : List XFact) :
    collectCandidates localNames (facts.filter (fun f => (factVal f).isSome))
      = (collectCandidates localNames facts).filter (fun f => (factVal f).isSome) := by
  induction localNames with
  | nil => rfl
  | cons n rest ih =>
    simp only [collectCandidates, List.map_cons, List.flatten_cons, List.filter_append]
    rw [List.filter_filter, List.filter_filter]
    refine congrArg₂ _ ?_ ih
    refine List.filter_congr (fun f _ => ?_)
    rw [Bool.and_comm]

theorem get_val_by_tag_eq_selectLoop (localNames : List (List Char)) (facts : List XFact) :
    get_val_by_tag localNames facts
      = selectLoop (collectCandidates localNames facts) 0 (-1) := by
  show (if (collectCandidates localNames facts).isEmpty then (0 : Int)
      else selectLoop (collectCandidates localNames facts) 0 (-1))
    = selectLoop (collectCandidates localNames facts) 0 (-1)
  split
  · next h => rw [List.isEmpty_iff.mp h]; rfl
  · rfl

/-- C4: the extractor selects the value of the highest-priority candidate
fact, ties broken by first occurrence, and facts with empty or
non-numeric raw value are skipped entirely; in particular a
`CurrentYearInstant` fact (priority 3) beats a `Prior1YearInstant` fact
(priority 0) in either list order. -/
theorem get_val_by_tag_priority (localNames : List (List Char)) (facts : List XFact) :
    (get_val_by_tag localNames facts
        = get_val_by_tag localNames (facts.filter (fun f => (factVal f).isSome)))
    ∧ (∀ f : XFact,
        ((collectCandidates localNames facts).filter
              (fun g => (factVal g).isSome)).find?
            (fun g => contextScore g.contextRef
              == maxScore ((collectCandidates localNames facts).filter
                    (fun g => (factVal g).isSome)) (-1))
          = some f →
        get_val_by_tag localNames facts = pyTrunc ((factVal f).getD ⟨0, 0⟩))
    ∧ get_val_by_tag ["CurrentAssets".toList]
        [⟨"jppfs_cor:CurrentAssets".toList, "CurrentYearInstant".toList, "100".toList⟩,
         ⟨"jppfs_cor:CurrentAssets".toList, "Prior1YearInstant".toList, "50".toList⟩] = 100
    ∧ get_val_by_tag ["CurrentAssets".toList]
        [⟨"jppfs_cor:CurrentAssets".toList, "Prior1YearInstant".toList, "50".toList⟩,
         ⟨"jppfs_cor:CurrentAssets".toList, "CurrentYearInstant".toList, "100".toList⟩] = 100 := by
  refine ⟨?_, ?_, by decide, by decide⟩
  · rw [get_val_by_tag_eq_selectLoop, get_val_by_tag_eq_selectLoop,
      collectCandidates_filter, ← selectLoop_skips_invalid]
  · intro f hfind
    have hmem := List.mem_of_find?_eq_some hfind
    have hval : ∀ g ∈ (collectCandidates localNames facts).filter
        (fun g => (factVal g).isSome), (factVal g).isSome = true :=
      fun g hg => (List.mem_filter.mp hg).2
    have hmax : (-1 : Int) < maxScore ((collectCandidates localNames facts).filter
        (fun g => (factVal g).isSome)) (-1) :=
      lt_of_lt_of_le (by norm_num : (-1 : Int) < 0)
        (le_trans (contextScore_nonneg _) (score_le_maxScore _ _ _ hmem))
    rw [get_val_by_tag_eq_selectLoop, selectLoop_skips_invalid]
    exact selectLoop_finds_first_max _ 0 (-1) hval hmax f hfind

/-- Witness for C4 at a concrete two-fact document. -/
theorem get_val_by_tag_priority_witness :
    get_val_by_tag ["CurrentAssets".toList]
        [⟨"jppfs_cor:CurrentAssets".toList, "CurrentYearInstant".toList, "100".toList⟩,
         ⟨"jppfs_cor:CurrentAssets".toList, "Prior1YearInstant".toList, "50".toList⟩]
      = pyTrunc ((factVal ⟨"jppfs_cor:CurrentAssets".toList,
          "CurrentYearInstant".toList, "100".toList⟩).getD ⟨0, 0⟩) :=
  (get_val_by_tag_priority ["CurrentAssets".toList]
      [⟨"jppfs_cor:CurrentAssets".toList, "CurrentYearInstant".toList, "100".toList⟩,
       ⟨"jppfs_cor:CurrentAssets".toList, "Prior1YearInstant".toList, "50".toList⟩]).2.1
    _ (by decide)

/-- C5: a label matches a target name iff it equals the name or ends with
`":"` followed by the name; `"jppfs_cor:CurrentAssets"` matches
`"CurrentAssets"` while `"OtherCurrentAssets"` does not. -/
theorem targetPattern_suffix_boundary :
    (∀ label name : List Char,
        targetPattern label name = true
          ↔ label = name ∨ ∃ pre : List Char, label = pre ++ ':' :: name)
    ∧ targetPattern "jppfs_cor:CurrentAssets".toList "CurrentAssets".toList = true
    ∧ targetPattern "OtherCurrentAssets".toList "CurrentAssets".toList = false := by
  refine ⟨fun label name => ?_, by decide, by decide⟩
  unfold targetPattern
  rw [Bool.or_eq_true, beq_iff_eq, List.isSuffixOf_iff_suffix]
  constructor
  · rintro (h | ⟨t, ht⟩)
    · exact Or.inl h
    · exact Or.inr ⟨t, ht.symm⟩
  · rintro (h | ⟨pre, hpre⟩)
    · exact Or.inl h
    · exact Or.inr ⟨pre, hpre.symm⟩

/-- C10: the extractor parses the selected raw value as an exact decimal
and truncates it toward zero: a lone matching fact with value `d` yields
`pyTrunc d`; concretely `"100.9"` yields `100` and `"-100.9"` yields
`-100` (truncation toward zero, not flooring). -/
theorem get_val_by_tag_truncates :
    (∀ (localNames : List (List Char)) (f : XFact) (d : DecVal),
        collectCandidates localNames [f] = [f] →
        factVal f = some d →
        get_val_by_tag localNames [f] = pyTrunc d)
    ∧ get_val_by_tag ["CurrentAssets".toList]
        [⟨"CurrentAssets".toList, "CurrentYearInstant".toList, "100.9".toList⟩] = 100
    ∧ factVal ⟨"CurrentAssets".toList, "CurrentYearInstant".toList, "100.9".toList⟩
        = some ⟨1009, 1⟩
    ∧ pyTrunc ⟨1009, 1⟩ = 100
    ∧ factVal ⟨"NetAssets".toList, "CurrentYearInstant".toList, "-100.9".toList⟩
        = some ⟨-1009, 1⟩
    ∧ pyTrunc ⟨-1009, 1⟩ = -100 := by
  refine ⟨fun localNames f d hcand hd => ?_, by decide, by decide, by decide,
    by decide, by decide⟩
  rw [get_val_by_tag_eq_selectLoop, hcand]
  have hlt : (-1 : Int) < contextScore f.contextRef :=
    lt_of_lt_of_le (by norm_num) (contextScore_nonneg _)
  simp [selectLoop, hd, hlt]

/-- Witness for C10 at the concrete `"100.9"` fact. -/
theorem get_val_by_tag_truncates_witness :
    get_val_by_tag ["CurrentAssets".toList]
        [⟨"CurrentAssets".toList, "CurrentYearInstant".toList, "100.9".toList⟩]
      = pyTrunc ⟨1009, 1⟩ :=
  (get_val_by_tag_truncates).1 ["CurrentAssets".toList]
    ⟨"CurrentAssets".toList, "CurrentYearInstant".toList, "100.9".toList⟩
    ⟨1009, 1⟩ (by decide) (by decide)

/-- One row of the EDINET code list as `get_edinet_code` uses it after
the fuzzy column lookup: the security-code cell read as text
(`astype(str)`), the EDINET code and the submitter name. -/
structure CodeRow where
  secCode : List Char
  edinetCode : List Char
  submitterName : List Char
  deriving Repr, DecidableEq

/-- `get_edinet_code` (utils.py lines 67-95): the first row whose
security-code text starts with the ticker (`str.startswith`), returning
its EDINET code and submitter name, else `None`. -/
def get_edinet_code (ticker : List Char) (rows : List CodeRow) :
    Option (List Char × List Char) :=
  (rows.find? (fun r => ticker.isPrefixOf r.secCode)).map
    (fun r => (r.edinetCode, r.submitterName))

/-- One record of a day's disclosure-index page as `search_latest_yuho`
reads it: filer EDINET code, document type code, document identifier. -/
structure FilingItem where
  edinetCode : List Char
  docTypeCode : List Char
  docID : List Char
  deriving Repr, DecidableEq

/-- The allow-list of utils.py line 105: annual (120), quarterly (140)
and semi-annual (160) reports. -/
def target_docs : List (List Char) :=
  ["120".toList, "140".toList, "160".toList]

/-- The inner loop of utils.py lines 129-134: the first record of the
day's page whose filer code matches and whose type code is
allow-listed. -/
def dayHit (items : List FilingItem) (ecode : List Char) : Option (List Char) :=
  (items.find? (fun it => it.edinetCode == ecode
      && target_docs.contains it.docTypeCode)).map (fun it => it.docID)

/-- The day loop of `search_latest_yuho` (utils.py lines 110-138),
at day offset `i` (0 = today, increasing into the past) with `fuel`
iterations of the 365-day window left. The disclosure index is a
function from day offset to that day's records (a failed or empty
request is an empty day, lines 124-126 and 135-136). Returns the
document id found, paired with the number of days queried up to and
including the hit. -/
def searchFrom (idx : Nat → List FilingItem) (ecode : List Char) :
    Nat → Nat → Option (List Char × Nat)
  | 0, _ => none
  | fuel + 1, i =>
    match dayHit (idx i) ecode with
    | some d => some (d, i + 1)
    | none => searchFrom idx ecode fuel (i + 1)

/-- `search_latest_yuho`: scan today and the 364 previous days, newest
first, short-circuiting on the first qualifying record. -/
def search_latest_yuho (idx : Nat → List FilingItem) (ecode : List Char) :
    Option (List Char × Nat) :=
  searchFrom idx ecode 365 0

theorem searchFrom_skip (idx : Nat → List FilingItem) (ecode : List Char)
    (n fuel i : Nat)
    (h : ∀ j, j < n → dayHit (idx (i + j)) ecode = none) :
    searchFrom idx ecode (n + fuel) i = searchFrom idx ecode fuel (i + n) := by
  induction n generalizing i with
  | zero => rw [Nat.zero_add, Nat.add_zero]
  | succ n ih =>
    have hz : dayHit (idx i) ecode = none := by
      have := h 0 (Nat.succ_pos n)
      rwa [Nat.add_zero] at this
    have hstep : searchFrom idx ecode (n + 1 + fuel) i
        = searchFrom idx ecode (n + fuel) (i + 1) := by
      have harith : n + 1 + fuel = (n + fuel) + 1 := by omega
      rw [harith]
      simp [searchFrom, hz]
    rw [hstep, ih (i + 1) (fun j hj => by
      have := h (j + 1) (Nat.succ_lt_succ hj)
      rwa [show i + (j + 1) = i + 1 + j by omega] at this)]
    rw [show i + 1 + n = i + (n + 1) by omega]

/-- A disclosure index whose only record in the whole window is a
qualifying annual report 40 days before today. -/
def day40Idx : Nat → List FilingItem := fun i =>
  if i == 40 then [⟨"E02144".toList, "120".toList, "S100DOC1".toList⟩] else []

/-- C3 counterexample: with the only qualifying record published 40 days
before today, the scan queries day offsets 0 through 40 inclusive — 41
days, not 40 — before returning that day's document identifier. -/
theorem search_latest_yuho_day40_count :
    search_latest_yuho day40Idx "E02144".toList = some ("S100DOC1".toList, 41)
    ∧ search_latest_yuho day40Idx "E02144".toList ≠ some ("S100DOC1".toList, 40) := by
  have h1 : search_latest_yuho day40Idx "E02144".toList
      = some ("S100DOC1".toList, 41) := rfl
  refine ⟨h1, fun h => ?_⟩
  rw [h1] at h
  exact absurd h (by decide)

/-- C3 (amended): when no day among offsets 0-39 (today backward) has a
qualifying record and day offset 40 (40 days before today) does, the
backward scan returns that day's document identifier after querying
exactly 41 days — today plus the 40 before it, visited in strictly
decreasing date order and short-circuiting at the first qualifying
match, which is therefore the most recent in time. -/
theorem search_latest_yuho_backward_scan
    (idx : Nat → List FilingItem) (ecode d : List Char)
    (hbefore : ∀ j, j < 40 → dayHit (idx j) ecode = none)
    (hday : dayHit (idx 40) ecode = some d) :
    search_latest_yuho idx ecode = some (d, 41) := by
  unfold search_latest_yuho
  have h40 : searchFrom idx ecode (40 + 325) 0 = searchFrom idx ecode 325 (0 + 40) :=
    searchFrom_skip idx ecode 40 325 0 (fun j hj => by
      rw [Nat.zero_add]
      exact hbefore j hj)
  rw [show (365 : Nat) = 40 + 325 by omega, h40, Nat.zero_add,
    show (325 : Nat) = 324 + 1 by omega]
  simp [searchFrom, hday]

/-- Witness for C3 (amended) on the concrete one-record index. -/
theorem search_latest_yuho_backward_scan_witness :
    search_latest_yuho day40Idx "E02144".toList = some ("S100DOC1".toList, 41) :=
  search_latest_yuho_backward_scan day40Idx "E02144".toList "S100DOC1".toList
    (by decide) (by decide)

/-- C6: the resolver returns the EDINET code and name of the first row
whose security-code text starts with the ticker; in particular ticker
`"7203"` resolves against security code `"72030"` by prefix match, a
case plain equality would miss. -/
theorem get_edinet_code_first_match :
    (∀ (ticker : List Char) (pre post : List CodeRow) (r : CodeRow),
        (∀ r' ∈ pre, ticker.isPrefixOf r'.secCode = false) →
        ticker.isPrefixOf r.secCode = true →
        get_edinet_code ticker (pre ++ r :: post)
          = some (r.edinetCode, r.submitterName))
    ∧ get_edinet_code "7203".toList
        [⟨"72030".toList, "E02144".toList, "TOYOTA MOTOR CORP".toList⟩]
        = some ("E02144".toList, "TOYOTA MOTOR CORP".toList)
    ∧ ("7203".toList == "72030".toList) = false := by
  refine ⟨?_, by decide, by decide⟩
  intro ticker pre post r hpre hr
  induction pre with
  | nil =>
    unfold get_edinet_code
    rw [List.nil_append,
      @List.find?_cons_of_pos CodeRow (fun r' => ticker.isPrefixOf r'.secCode)
        r post hr]
    rfl
  | cons q pre' ih =>
    have hq : ¬ ((fun r' : CodeRow => ticker.isPrefixOf r'.secCode) q = true) := by
      simp [hpre q (List.mem_cons_self q pre')]
    unfold get_edinet_code at ih ⊢
    rw [List.cons_append,
      @List.find?_cons_of_neg CodeRow (fun r' => ticker.isPrefixOf r'.secCode)
        q (pre' ++ r :: post) hq]
    exact ih (fun r' hr' => hpre r' (List.mem_cons_of_mem q hr'))

/-- Witness for C6 on a one-row table. -/
theorem get_edinet_code_first_match_witness :
    get_edinet_code "7203".toList
        [⟨"72030".toList, "E02144".toList, "TOYOTA MOTOR CORP".toList⟩]
      = some ("E02144".toList, "TOYOTA MOTOR CORP".toList) :=
  (get_edinet_code_first_match).1 "7203".toList []
    [] ⟨"72030".toList, "E02144".toList, "TOYOTA MOTOR CORP".toList⟩
    (by intro r' hr'; cases hr') (by decide)

/-- C1 counterexample: with `ca = 100, nca = 100` and an explicit
total-assets fact of `150`, the assets breakdown is larger than the trusted
total, nothing shrinks it, and `currentAssets + nonCurrentAssets`
(= 200) differs from `totalAssets` (= 150). -/
theorem reconcile_assets_invariant_fails :
    ¬ ((reconcile 100 100 0 0 0 150 0).currentAssets
        + (reconcile 100 100 0 0 0 150 0).nonCurrentAssets
        = (reconcile 100 100 0 0 0 150 0).totalAssets) := by
  decide

/-- C1 (amended): the liabilities-side invariant
`currentLiabilities + nonCurrentLiabilities + netAssets = totalAssets`
holds for every input (the force-balance step restores it
unconditionally); the assets-side invariant
`currentAssets + nonCurrentAssets = totalAssets` holds whenever the
extracted breakdown does not exceed the trusted total, i.e. whenever
`ca + nca ≤` (the explicit total-assets fact when non-zero, else
`ca + nca`). -/
theorem reconcile_invariants (ca nca cl ncl na taF tlF : Int) :
    ((reconcile ca nca cl ncl na taF tlF).currentLiabilities
      + (reconcile ca nca cl ncl na taF tlF).nonCurrentLiabilities
      + (reconcile ca nca cl ncl na taF tlF).netAssets
      = (reconcile ca nca cl ncl na taF tlF).totalAssets)
    ∧ (ca + nca ≤ (if taF = 0 then ca + nca else taF) →
        (reconcile ca nca cl ncl na taF tlF).currentAssets
          + (reconcile ca nca cl ncl na taF tlF).nonCurrentAssets
          = (reconcile ca nca cl ncl na taF tlF).totalAssets) := by
  unfold reconcile
  split_ifs <;> simp_all <;> omega

/-- Witness for C1 (amended) at `ca = 100, nca = 50, taF = 200`. -/
theorem reconcile_invariants_witness :
    ((reconcile 100 50 20 10 0 200 0).currentLiabilities
      + (reconcile 100 50 20 10 0 200 0).nonCurrentLiabilities
      + (reconcile 100 50 20 10 0 200 0).netAssets
      = (reconcile 100 50 20 10 0 200 0).totalAssets)
    ∧ ((reconcile 100 50 20 10 0 200 0).currentAssets
        + (reconcile 100 50 20 10 0 200 0).nonCurrentAssets
        = (reconcile 100 50 20 10 0 200 0).totalAssets) :=
  ⟨(reconcile_invariants 100 50 20 10 0 200 0).1,
   (reconcile_invariants 100 50 20 10 0 200 0).2 (by decide)⟩

/-- C2 counterexample: with `totalAssets = 200, cl = 50, ncl = 30,
na = 100` and no explicit total-liabilities fact, the code first infers
`total_liabilities = 200 - 100 = 100` and plugs `ncl := 100 - 50 = 50`,
so the force-balance residual is already zero and `netAssets` stays
`100`, not `120`. -/
theorem reconcile_force_balance_counterexample :
    (reconcile 0 0 50 30 100 200 0).netAssets = 100
    ∧ ¬ ((reconcile 0 0 50 30 100 200 0).netAssets = 120) := by
  decide

/-- C2 (amended): given `totalAssets = 200, cl = 50, ncl = 30, na = 100`
and no explicit total-liabilities fact, total liabilities is inferred as
`100`, the liabilities-breakdown plug sets `ncl` to `50`, the
force-balance residual is zero, and `netAssets` remains `100` —
whatever the asset line items are. -/
theorem reconcile_inferred_liabilities (ca nca : Int) :
    (reconcile ca nca 50 30 100 200 0).netAssets = 100
    ∧ (reconcile ca nca 50 30 100 200 0).nonCurrentLiabilities = 50
    ∧ (reconcile ca nca 50 30 100 200 0).currentLiabilities = 50
    ∧ (reconcile ca nca 50 30 100 200 0).totalAssets = 200 := by
  unfold reconcile
  split_ifs <;> simp_all

/-- C7: with `ca = 100, nca = 50` and an explicit total-assets fact of
`200`, the assets breakdown step plugs the shortfall into non-current
assets (`nca` becomes `100`) and `totalAssets` is `200`, whatever the
liabilities-side inputs are. -/
theorem reconcile_plug_to_noncurrent (cl ncl na tlF : Int) :
    (reconcile 100 50 cl ncl na 200 tlF).nonCurrentAssets = 100
    ∧ (reconcile 100 50 cl ncl na 200 tlF).currentAssets = 100
    ∧ (reconcile 100 50 cl ncl na 200 tlF).totalAssets = 200 := by
  unfold reconcile
  split_ifs <;> simp_all

/-- C8: the all-zero input reconciles (no step can fail: `reconcile` is a
total function) to the all-zero summary, recognizable by
`totalAssets = 0`. -/
theorem reconcile_all_zero :
    reconcile 0 0 0 0 0 0 0 = ⟨0, 0, 0, 0, 0, 0⟩
    ∧ (reconcile 0 0 0 0 0 0 0).totalAssets = 0 := by
  decide

/-- C9: reconciliation never rewrites the extracted current-assets and
current-liabilities values: only `nca`, `ncl`, `na` and the totals are
ever reassigned. -/
theorem reconcile_preserves_current (ca nca cl ncl na taF tlF : Int) :
    (reconcile ca nca cl ncl na taF tlF).currentAssets = ca
    ∧ (reconcile ca nca cl ncl na taF tlF).currentLiabilities = cl :=
  ⟨rfl, rfl⟩
